import Mathlib

/-!
Verification of the core of `monitor-watcher`: a shallow embedding of
`ProfileManager.apply_profile` (profile_manager.py) and of the USB presence
monitor (`src/usb_monitor.py`), together with theorems settling the frozen
claims about them.
-/

namespace MonitorWatcher

/-! ## Input code table, from `constants.py` -/

/-- The fixed table `INPUT_MAP` of `constants.py`: canonical lowercase
input name to integer hardware code. -/
def INPUT_MAP : List (String × Nat) :=
  [("hdmi1", 17), ("hdmi2", 18), ("dp1", 15), ("dp2", 16), ("usbc", 27)]

/-- Embedding of Python `str.lower` on a single character, for the ASCII
range that the repository's input names and WMI device ids use:
characters with code 65..90 are shifted by 32, all others unchanged. -/
def pyToLower (c : Char) : Char :=
  if 65 ≤ c.toNat ∧ c.toNat ≤ 90 then Char.ofNat (c.toNat + 32) else c

/-- Embedding of Python `str.lower` on a string. -/
def pyLower (s : String) : String :=
  String.mk (s.data.map pyToLower)

/-- Lookup of a (already lowercased) input name in `INPUT_MAP`, i.e. the
combination of `input_name_lower in INPUT_MAP` and `INPUT_MAP[input_name_lower]`
in `profile_manager.py`. -/
def lookupInput (s : String) : Option Nat :=
  INPUT_MAP.lookup s

/-! ## Profile applicator, from `ProfileManager.apply_profile` -/

/-- A profile as `apply_profile` reads it: the `monitors` field is an ordered
mapping from display identifier to input name (a Python dict preserves
insertion order; its keys are distinct). -/
structure Profile where
  description : String
  monitors : List (String × String)
  deriving DecidableEq

/-- The display backend as `apply_profile` sees it (`DisplayController`):
`getInput` returns the current input code or `none` when the controller
cannot determine it (`get_input` returns `None`); `setFails` tells whether
the `set_input` call for a given display and code raises a hardware error. -/
structure Backend where
  getInput : String → Option Nat
  setFails : String → Nat → Bool

/-- Observable events of one `apply_profile` run, in order: the warning for
an unknown input name, the `get_input` backend call, the "already set,
skipping" skip, the `set_input` backend call, and the 500 ms
`time.sleep(0.5)` delay. -/
inductive Event where
  | warn (display inputName : String)
  | getInput (display : String)
  | skip (display : String)
  | setInput (display : String) (code : Nat)
  | delay
  deriving DecidableEq

/-- Terminal error outcomes of `apply_profile`: profile not found, profile
with no monitor configuration, or a hardware error raised by `set_input`
(which propagates out of the loop uncaught). -/
inductive ApplyError where
  | profileNotFound
  | emptyProfile
  | hardwareError (display : String) (code : Nat)
  deriving DecidableEq

/-- The entry loop of `apply_profile` (profile_manager.py lines 160-188):
`idx` is the enumeration index of the head entry and `total` is
`len(monitors)`. Returns the event trace and the error, if any, that
aborted the loop. -/
def applyEntries (b : Backend) (total : Nat) : Nat → List (String × String) → List Event × Option ApplyError
  | _, [] => ([], none)
  | idx, (d, n) :: rest =>
    match lookupInput (pyLower n) with
    | none =>
      let r := applyEntries b total (idx + 1) rest
      (Event.warn d n :: r.1, r.2)
    | some code =>
      if b.getInput d = some code then
        let r := applyEntries b total (idx + 1) rest
        (Event.getInput d :: Event.skip d :: r.1, r.2)
      else if b.setFails d code then
        ([Event.getInput d, Event.setInput d code], some (ApplyError.hardwareError d code))
      else
        let tail := if idx < total - 1 then [Event.delay] else []
        let r := applyEntries b total (idx + 1) rest
        (Event.getInput d :: Event.setInput d code :: (tail ++ r.1), r.2)

/-- Embedding of `ProfileManager.apply_profile`: resolve the profile, fail
on a missing profile or an empty `monitors` mapping before any backend
call, otherwise run the entry loop. -/
def apply_profile (prof : Option Profile) (b : Backend) : List Event × Option ApplyError :=
  match prof with
  | none => ([], some ApplyError.profileNotFound)
  | some p =>
    if p.monitors = [] then ([], some ApplyError.emptyProfile)
    else applyEntries b p.monitors.length 0 p.monitors

/-- The event trace one entry contributes when no hardware error occurs,
as a function of its enumeration index. -/
def entryTrace (b : Backend) (total idx : Nat) (e : String × String) : List Event :=
  match lookupInput (pyLower e.2) with
  | none => [Event.warn e.1 e.2]
  | some code =>
    if b.getInput e.1 = some code then [Event.getInput e.1, Event.skip e.1]
    else [Event.getInput e.1, Event.setInput e.1 code] ++
      (if idx < total - 1 then [Event.delay] else [])

/-- The trace of a list of entries starting at enumeration index `idx`,
when no hardware error occurs. -/
def entriesTrace (b : Backend) (total : Nat) : Nat → List (String × String) → List Event
  | _, [] => []
  | idx, e :: rest => entryTrace b total idx e ++ entriesTrace b total (idx + 1) rest

/-- Number of `set_input` backend calls for display `d` in a trace. -/
def setCalls (evs : List Event) (d : String) : Nat :=
  (evs.filter fun e =>
    match e with
    | Event.setInput d' _ => d' == d
    | _ => false).length

/-! ## USB presence monitor, from `src/usb_monitor.py` -/

/-- A USB device identity: the `(vendor_id, product_id)` pair. -/
abbrev Device := String × String

/-- The monitor fields that one poll tick reads: the two optional target id
strings set by `set_target_device` and whether an `on_connect` callback is
installed. -/
structure MonitorConfig where
  targetVendor : Option String
  targetProduct : Option String
  hasCallback : Bool

/-- The guard `if self.target_vendor_id and self.target_product_id` of the
monitor loop: both fields must be set and non-empty (Python truthiness);
the target is then the pair of them. -/
def targetConfigured (cfg : MonitorConfig) : Option Device :=
  match cfg.targetVendor, cfg.targetProduct with
  | some v, some p => if v ≠ "" ∧ p ≠ "" then some (v, p) else none
  | _, _ => none

/-- Outcome of one `_get_connected_devices()` call as the loop's `try` block
sees it: either a snapshot value, or an exception propagating into the
loop's `except` handler. -/
inductive EnumResult where
  | ok (devices : Finset Device)
  | error
  deriving DecidableEq

/-- One poll tick's environment: what enumeration does, and whether the
`on_connect` callback raises when invoked on this tick. -/
structure TickInput where
  enum : EnumResult
  callbackRaises : Bool

/-- One iteration of `USBMonitor._monitor_loop` (lines 123-145), starting
from `last = self._last_devices`. Returns the value of `self._last_devices`
after the iteration and whether the callback was invoked. An exception from
enumeration or from the callback is caught by the loop's `except` handler;
in both cases the `self._last_devices = current_devices` assignment has not
run, so the field keeps its old value. -/
def monitorStep (cfg : MonitorConfig) (last : Finset Device) (t : TickInput) :
    Finset Device × Bool :=
  match t.enum with
  | EnumResult.error => (last, false)
  | EnumResult.ok current =>
    let newDevices := current \ last
    match targetConfigured cfg with
    | some target =>
      if target ∈ newDevices ∧ cfg.hasCallback then
        if t.callbackRaises then (last, true) else (current, true)
      else (current, false)
    | none => (current, false)

/-- The monitor loop over a list of tick inputs: returns the final
`self._last_devices` and the per-tick list of callback invocations. -/
def monitorRun (cfg : MonitorConfig) (last : Finset Device) :
    List TickInput → Finset Device × List Bool
  | [] => (last, [])
  | t :: rest =>
    let s := monitorStep cfg last t
    let r := monitorRun cfg s.1 rest
    (r.1, s.2 :: r.2)

/-- One monitoring session, as started by `start_monitoring`: `stale` is
whatever `self._last_devices` held before the new thread ran (e.g. the
state left over from a previous stopped session) and `init` is the initial
snapshot taken by line 120 (`self._last_devices = self._get_connected_devices()`),
which overwrites `stale` before the first comparison tick. -/
def monitorSession (cfg : MonitorConfig) (_stale init : Finset Device)
    (ticks : List TickInput) : Finset Device × List Bool :=
  monitorRun cfg init ticks

/-- Embedding of `MacOSUSBMonitor._get_connected_devices`: the whole body is
wrapped in `try ... except Exception: pass`, so the function never raises;
when the `system_profiler` subprocess call fails (the backend-failure case)
no device has been accumulated yet and the returned set is empty. -/
def macosEnumerate (backendOk : Bool) (parsed : Finset Device) : Finset Device :=
  if backendOk then parsed else ∅

/-- The tick input the loop receives on macOS: enumeration never raises,
it returns `macosEnumerate backendOk parsed`. -/
def macosTickInput (backendOk : Bool) (parsed : Finset Device) (cbRaises : Bool) : TickInput :=
  { enum := EnumResult.ok (macosEnumerate backendOk parsed), callbackRaises := cbRaises }

/-- A list of successful, non-raising ticks with the given snapshots. -/
def okTicks (snaps : List (Finset Device)) : List TickInput :=
  snaps.map fun s => { enum := EnumResult.ok s, callbackRaises := false }

/-- Edge detection over a snapshot sequence: `true` at a position exactly
when the target is in that snapshot and was not in the preceding one. -/
def edgeFires (t : Device) : Finset Device → List (Finset Device) → List Bool
  | _, [] => []
  | prev, s :: rest => decide (t ∈ s ∧ t ∉ prev) :: edgeFires t s rest

/-! ## Windows USB enumeration, from `WindowsUSBMonitor._get_connected_devices` -/

/-- Embedding of the Python substring test `sub in s` on character lists. -/
def containsSub (sub : List Char) : List Char → Bool
  | [] => sub.isPrefixOf []
  | c :: rest => sub.isPrefixOf (c :: rest) || containsSub sub rest

/-- Index of the first occurrence of `sub` in a character list, the
embedding of Python `str.index` (only used where the substring occurs). -/
def firstIndexOf (sub : List Char) : List Char → Nat
  | [] => 0
  | c :: rest => if sub.isPrefixOf (c :: rest) then 0 else firstIndexOf sub rest + 1

/-- Embedding of the DeviceID parsing in
`WindowsUSBMonitor._get_connected_devices` (lines 264-277): guard on
`'USB\VID_' in DeviceID` and on `'VID_' in ... and 'PID_' in ...`, then take
the four characters after the first `VID_` / `PID_` (Python slicing
truncates when the string is shorter), lowercase them and prefix `0x`. -/
def winParseDevice (deviceId : String) : Option Device :=
  let cs := deviceId.data
  if containsSub ("USB\\VID_").data cs then
    if containsSub ("VID_").data cs ∧ containsSub ("PID_").data cs then
      let vidStart := firstIndexOf ("VID_").data cs + 4
      let pidStart := firstIndexOf ("PID_").data cs + 4
      let vid := ((cs.drop vidStart).take 4).map pyToLower
      let pid := ((cs.drop pidStart).take 4).map pyToLower
      some (String.mk ('0' :: 'x' :: vid), String.mk ('0' :: 'x' :: pid))
    else none
  else none

/-- The snapshot the Windows enumeration produces from the WMI `DeviceID`
strings of the present PnP entities. -/
def winGetConnectedDevices (deviceIds : List String) : Finset Device :=
  (deviceIds.filterMap winParseDevice).toFinset

/-- Ticks of a Windows run: each tick's enumeration parses the WMI
DeviceID strings present at that tick, and `cbs` gives each tick's
callback outcome. -/
def winTicks (idss : List (List String)) (cbs : List Bool) : List TickInput :=
  List.zipWith
    (fun ids cb => { enum := EnumResult.ok (winGetConnectedDevices ids), callbackRaises := cb })
    idss cbs

/-- Test for an uppercase ASCII letter, used to state the normalization
invariant of the Windows enumeration. -/
def isUpperChar (c : Char) : Bool :=
  decide (65 ≤ c.toNat) && decide (c.toNat ≤ 90)

/-- Whether a string contains an uppercase ASCII letter. -/
def hasUpper (s : String) : Bool :=
  s.data.any isUpperChar

/-! ## Concrete instances used by the claims -/

/-- The example target device of the repository docs. -/
def devT : Device := ("0x05e3", "0x0610")

/-- A monitor configured with `devT` as target and a callback installed. -/
def cfgT : MonitorConfig :=
  { targetVendor := some ("0x05e3"), targetProduct := some ("0x0610"), hasCallback := true }

/-- The snapshot sequence of the edge-triggering property. -/
def seqC3 : List TickInput :=
  okTicks [∅, {devT}, {devT}, ∅, {devT}]

/-- A monitor whose target was configured with uppercase hex digits. -/
def cfgUpper : MonitorConfig :=
  { targetVendor := some ("0x05E3"), targetProduct := some ("0x0610"), hasCallback := true }

/-- A WMI DeviceID list containing the target device (uppercase form). -/
def upperIds : List String := ["USB\\VID_05E3&PID_0610\\6&1F0"]

/-- A concrete two-entry profile used by witnesses. -/
def p4 : Profile := { description := "desk", monitors := [("1", "HDMI1"), ("2", "dp1")] }

/-- A backend where display 1 already shows input 17 and display 2 is
unknown, and no set call fails. -/
def b4 : Backend :=
  { getInput := fun d => if d = "1" then some 17 else none, setFails := fun _ _ => false }

/-- A backend that cannot determine any current input and never fails. -/
def b6 : Backend := { getInput := fun _ => none, setFails := fun _ _ => false }

/-- A three-entry profile used by the abort witness. -/
def p5 : Profile :=
  { description := "triple", monitors := [("1", "dp1"), ("2", "dp2"), ("3", "hdmi1")] }

/-- A backend whose set-input call fails exactly on display 2. -/
def b5 : Backend := { getInput := fun _ => none, setFails := fun d _ => d == "2" }

/-- A two-entry profile whose input names are all unknown. -/
def p7 : Profile := { description := "bogus", monitors := [("1", "vga"), ("2", "dvi")] }

/-- A profile with one unknown-name entry followed by a valid entry. -/
def pMixed : Profile := { description := "mixed", monitors := [("1", "vga"), ("2", "dp1")] }

/-! ## Helper lemmas about the profile applicator -/

theorem applyEntries_noFail (b : Backend) (hb : ∀ d c, b.setFails d c = false)
    (total : Nat) : ∀ (idx : Nat) (l : List (String × String)),
    applyEntries b total idx l = (entriesTrace b total idx l, none) := by
  intro idx l
  induction l generalizing idx with
  | nil => rfl
  | cons e rest ih =>
    obtain ⟨d, n⟩ := e
    simp only [applyEntries, entriesTrace, entryTrace]
    cases h : lookupInput (pyLower n) with
    | none => simp [ih]
    | some code =>
      by_cases hg : b.getInput d = some code
      · simp [hg, ih]
      · simp [hg, hb, ih]

theorem setCalls_append (a c : List Event) (d : String) :
    setCalls (a ++ c) d = setCalls a d + setCalls c d := by
  simp [setCalls, List.filter_append]

theorem setCalls_entryTrace_ne (b : Backend) (total idx : Nat) (e : String × String)
    (d : String) (hne : e.1 ≠ d) : setCalls (entryTrace b total idx e) d = 0 := by
  unfold entryTrace
  cases h : lookupInput (pyLower e.2) with
  | none => simp [setCalls]
  | some code =>
    by_cases hg : b.getInput e.1 = some code
    · simp [hg, setCalls]
    · by_cases hi : idx < total - 1 <;> simp [hg, hi, setCalls, hne]

theorem setCalls_entryTrace_self (b : Backend) (total idx : Nat) (d n : String) (code : Nat)
    (hcode : lookupInput (pyLower n) = some code) :
    setCalls (entryTrace b total idx (d, n)) d
      = if b.getInput d = some code then 0 else 1 := by
  unfold entryTrace
  simp only [hcode]
  by_cases hg : b.getInput d = some code
  · simp [hg, setCalls]
  · by_cases hi : idx < total - 1 <;> simp [hg, hi, setCalls]

theorem setCalls_entriesTrace_notMem (b : Backend) (total : Nat) (d : String) :
    ∀ (idx : Nat) (l : List (String × String)), d ∉ l.map Prod.fst →
      setCalls (entriesTrace b total idx l) d = 0 := by
  intro idx l
  induction l generalizing idx with
  | nil => intro _; rfl
  | cons e rest ih =>
    intro hmem
    rw [List.map_cons, List.mem_cons] at hmem
    push_neg at hmem
    rw [entriesTrace, setCalls_append,
      setCalls_entryTrace_ne b total idx e d (fun h => hmem.1 h.symm), ih _ hmem.2]

theorem setCalls_entriesTrace_mem (b : Backend) (total : Nat) (d n : String) (code : Nat)
    (hcode : lookupInput (pyLower n) = some code) :
    ∀ (idx : Nat) (l : List (String × String)),
      (l.map Prod.fst).Nodup → (d, n) ∈ l →
      setCalls (entriesTrace b total idx l) d
        = if b.getInput d = some code then 0 else 1 := by
  intro idx l
  induction l generalizing idx with
  | nil => intro _ hmem; cases hmem
  | cons e rest ih =>
    intro hnd hmem
    rw [List.map_cons, List.nodup_cons] at hnd
    rw [entriesTrace, setCalls_append]
    rcases List.mem_cons.mp hmem with he | hrest
    · subst he
      rw [setCalls_entryTrace_self b total idx d n code hcode,
        setCalls_entriesTrace_notMem b total d _ rest hnd.1]
      simp
    · have hd : d ∈ rest.map Prod.fst := List.mem_map_of_mem Prod.fst hrest
      have hne : e.1 ≠ d := fun h => hnd.1 (h ▸ hd)
      rw [setCalls_entryTrace_ne b total idx e d hne, ih _ hnd.2 hrest]
      simp

theorem applyEntries_failSplit (b : Backend) (total : Nat)
    (dN nN : String) (codeN : Nat) (post : List (String × String))
    (hcode : lookupInput (pyLower nN) = some codeN)
    (hcur : ¬ b.getInput dN = some codeN)
    (hfail : b.setFails dN codeN = true) :
    ∀ (pre : List (String × String)) (idx : Nat),
      (∀ e ∈ pre, ∀ c, lookupInput (pyLower e.2) = some c →
        ¬ b.getInput e.1 = some c → b.setFails e.1 c = false) →
      applyEntries b total idx (pre ++ (dN, nN) :: post)
        = (entriesTrace b total idx pre ++ [Event.getInput dN, Event.setInput dN codeN],
           some (ApplyError.hardwareError dN codeN)) := by
  intro pre
  induction pre with
  | nil =>
    intro idx _
    simp only [List.nil_append, applyEntries, hcode, entriesTrace]
    simp [hcur, hfail]
  | cons e rest ih =>
    intro idx hpre
    obtain ⟨d, n⟩ := e
    have hrest : ∀ e ∈ rest, ∀ c, lookupInput (pyLower e.2) = some c →
        ¬ b.getInput e.1 = some c → b.setFails e.1 c = false :=
      fun e he => hpre e (List.mem_cons_of_mem _ he)
    rw [List.cons_append, entriesTrace]
    simp only [applyEntries]
    cases h : lookupInput (pyLower n) with
    | none => simp [entryTrace, h, ih (idx + 1) hrest]
    | some code =>
      by_cases hg : b.getInput d = some code
      · simp [entryTrace, h, hg, ih (idx + 1) hrest]
      · have hsf : b.setFails d code = false :=
          hpre (d, n) (List.mem_cons_self _ _) code h hg
        simp [entryTrace, h, hg, hsf, ih (idx + 1) hrest]

theorem allUnknownEntries (b : Backend) (total : Nat) :
    ∀ (idx : Nat) (l : List (String × String)),
      (∀ e ∈ l, lookupInput (pyLower e.2) = none) →
      applyEntries b total idx l = (l.map fun e => Event.warn e.1 e.2, none) := by
  intro idx l
  induction l generalizing idx with
  | nil => intro _; rfl
  | cons e rest ih =>
    intro hall
    obtain ⟨d, n⟩ := e
    have hd := hall (d, n) (List.mem_cons_self _ _)
    simp only [applyEntries, hd, List.map_cons]
    rw [ih (idx + 1) (fun e he => hall e (List.mem_cons_of_mem _ he))]

theorem setCalls_warns (l : List (String × String)) (d : String) :
    setCalls (l.map fun e => Event.warn e.1 e.2) d = 0 := by
  induction l with
  | nil => rfl
  | cons e rest ih => simpa [setCalls] using ih

/-! ## Claims C4 to C8: the profile applicator -/

/-- Claim C4: for every profile entry whose input name resolves in the
input-code table, `apply_profile` issues exactly one set-input call for
that entry when the backend's reported current input differs from the
desired code or is unknown, and zero set-input calls when the reported
current input equals the desired code (run without hardware failures;
display keys are distinct, as they are Python dict keys). -/
theorem C4_one_set_call_iff_differs (p : Profile) (b : Backend)
    (hb : ∀ d c, b.setFails d c = false)
    (hnodup : (p.monitors.map Prod.fst).Nodup)
    (d n : String) (hmem : (d, n) ∈ p.monitors)
    (code : Nat) (hcode : lookupInput (pyLower n) = some code) :
    setCalls (apply_profile (some p) b).1 d
      = if b.getInput d = some code then 0 else 1 := by
  have hne : p.monitors ≠ [] := List.ne_nil_of_mem hmem
  simp only [apply_profile]
  rw [if_neg hne, applyEntries_noFail b hb]
  exact setCalls_entriesTrace_mem b p.monitors.length d n code hcode 0 p.monitors hnodup hmem

theorem C4_witness : setCalls (apply_profile (some p4) b4).1 ("2") = 1 := by
  have h := C4_one_set_call_iff_differs p4 b4 (fun _ _ => rfl) (by decide)
    "2" "dp1" (by decide) 15 (by decide)
  simpa using h

/-- Claim C5: entries are processed in the profile's insertion order and a
hardware error raised by the set-input call of the Nth entry is not caught:
the run's trace is exactly the earlier entries processed in order followed
by the failing entry's get and set calls, the error propagates, and no
backend call is made for any later entry. -/
theorem C5_hardware_error_aborts (p : Profile) (b : Backend)
    (pre post : List (String × String)) (dN nN : String) (codeN : Nat)
    (hsplit : p.monitors = pre ++ (dN, nN) :: post)
    (hpre : ∀ e ∈ pre, ∀ c, lookupInput (pyLower e.2) = some c →
      ¬ b.getInput e.1 = some c → b.setFails e.1 c = false)
    (hcode : lookupInput (pyLower nN) = some codeN)
    (hcur : ¬ b.getInput dN = some codeN)
    (hfail : b.setFails dN codeN = true) :
    apply_profile (some p) b
      = (entriesTrace b p.monitors.length 0 pre
          ++ [Event.getInput dN, Event.setInput dN codeN],
         some (ApplyError.hardwareError dN codeN)) := by
  have hne : p.monitors ≠ [] := by simp [hsplit]
  simp only [apply_profile]
  rw [if_neg hne, hsplit]
  exact applyEntries_failSplit b (pre ++ (dN, nN) :: post).length dN nN codeN post
    hcode hcur hfail pre 0 hpre

theorem C5_witness :
    apply_profile (some p5) b5
      = ([Event.getInput ("1"), Event.setInput ("1") 15, Event.delay,
          Event.getInput ("2"), Event.setInput ("2") 16],
         some (ApplyError.hardwareError ("2") 16)) := by
  have h := C5_hardware_error_aborts p5 b5 [("1", "dp1")] [("3", "hdmi1")] "2" "dp2" 16
    rfl
    (by intro e he c _ _
        rw [List.mem_singleton] at he
        subst he
        rfl)
    (by decide) (by decide) (by decide)
  rw [h]
  decide

/-- Claim C6: in a run without hardware errors, the 500 ms inter-operation
delay occurs in an entry's trace exactly when a set-input call was
performed for that entry (its name resolves and the reported current input
differs from the desired code) and the entry is not the last one; no delay
after a skipped entry and none after the final entry. -/
theorem C6_delay_iff_set_and_not_last (p : Profile) (b : Backend)
    (hb : ∀ d c, b.setFails d c = false) (hne : p.monitors ≠ []) :
    (apply_profile (some p) b).1 = entriesTrace b p.monitors.length 0 p.monitors
    ∧ ∀ (idx : Nat) (e : String × String),
        Event.delay ∈ entryTrace b p.monitors.length idx e
          ↔ ((∃ c, lookupInput (pyLower e.2) = some c ∧ ¬ b.getInput e.1 = some c)
             ∧ idx < p.monitors.length - 1) := by
  constructor
  · simp only [apply_profile]
    rw [if_neg hne, applyEntries_noFail b hb]
  · intro idx e
    unfold entryTrace
    cases h : lookupInput (pyLower e.2) with
    | none => simp
    | some code =>
      by_cases hg : b.getInput e.1 = some code
      · simp [hg]
      · by_cases hi : idx < p.monitors.length - 1 <;> simp [hg, hi]

theorem C6_witness :
    (apply_profile (some p4) b6).1
      = [Event.getInput ("1"), Event.setInput ("1") 17, Event.delay,
         Event.getInput ("2"), Event.setInput ("2") 15] := by
  have h := C6_delay_iff_set_and_not_last p4 b6 (fun _ _ => rfl) (by decide)
  rw [h.1]
  decide

/-- Claim C7: for any backend, at any position in the entry loop, an entry
whose lowercased input name is not in the table contributes exactly one
warning and no backend event, and the loop continues on the remaining
entries exactly as it would without that entry, with the same outcome (so
a single bad entry never blocks the rest); in particular a nonempty
profile all of whose entries have unknown names yields one warning per
entry, zero set-input calls and overall success. -/
theorem C7_unknown_entry_warns_skips_continues :
    (∀ (b : Backend) (total idx : Nat) (d n : String) (rest : List (String × String)),
        lookupInput (pyLower n) = none →
        applyEntries b total idx ((d, n) :: rest)
          = (Event.warn d n :: (applyEntries b total (idx + 1) rest).1,
             (applyEntries b total (idx + 1) rest).2))
    ∧ ∀ (p : Profile) (b : Backend), p.monitors ≠ [] →
        (∀ e ∈ p.monitors, lookupInput (pyLower e.2) = none) →
        apply_profile (some p) b = (p.monitors.map fun e => Event.warn e.1 e.2, none)
        ∧ ∀ d, setCalls (apply_profile (some p) b).1 d = 0 := by
  constructor
  · intro b total idx d n rest h
    simp only [applyEntries, h]
  · intro p b hne hall
    have h : apply_profile (some p) b = (p.monitors.map fun e => Event.warn e.1 e.2, none) := by
      simp only [apply_profile]
      rw [if_neg hne]
      exact allUnknownEntries b p.monitors.length 0 p.monitors hall
    refine ⟨h, fun d => ?_⟩
    rw [h]
    exact setCalls_warns p.monitors d

theorem C7_witness :
    apply_profile (some pMixed) b6
      = ([Event.warn ("1") ("vga"), Event.getInput ("2"), Event.setInput ("2") 15], none)
    ∧ apply_profile (some p7) b6
      = ([Event.warn ("1") ("vga"), Event.warn ("2") ("dvi")], none) := by
  constructor
  · have h := C7_unknown_entry_warns_skips_continues.1 b6 2 0 ("1") ("vga")
      [("2", "dp1")] (by decide)
    show applyEntries b6 2 0 [("1", "vga"), ("2", "dp1")] = _
    rw [h]
    decide
  · have h2 := (C7_unknown_entry_warns_skips_continues.2 p7 b6 (by decide) (by decide)).1
    rw [h2]
    decide

/-- Claim C8: a profile whose monitors mapping is empty fails with the
empty-profile error and the event trace is empty, so no backend call of
any kind is ever issued. -/
theorem C8_empty_profile_aborts_early (desc : String) (b : Backend) :
    apply_profile (some { description := desc, monitors := [] }) b
      = ([], some ApplyError.emptyProfile) := rfl

/-! ## Helper lemmas about the USB monitor loop -/

theorem monitorRun_fired_length (cfg : MonitorConfig) :
    ∀ (last : Finset Device) (ticks : List TickInput),
      (monitorRun cfg last ticks).2.length = ticks.length := by
  intro last ticks
  induction ticks generalizing last with
  | nil => rfl
  | cons t rest ih => simp [monitorRun, ih]

theorem monitorRun_okTicks_edges (cfg : MonitorConfig) (target : Device)
    (ht : targetConfigured cfg = some target) (hcb : cfg.hasCallback = true) :
    ∀ (init : Finset Device) (snaps : List (Finset Device)),
      (monitorRun cfg init (okTicks snaps)).2 = edgeFires target init snaps := by
  intro init snaps
  induction snaps generalizing init with
  | nil => rfl
  | cons s rest ih =>
    simp only [okTicks, List.map_cons, monitorRun, monitorStep, ht, hcb, edgeFires]
    by_cases h : target ∈ s ∧ target ∉ init
    · have hmem : target ∈ s \ init := Finset.mem_sdiff.mpr h
      simp only [okTicks] at ih
      simp [hmem, h, ih]
    · have hmem : target ∉ s \ init := fun hc => h (Finset.mem_sdiff.mp hc)
      simp only [okTicks] at ih
      simp [hmem, h, ih]

/-! ## Claims C1, C2, C3 and C9: the USB monitor -/

/-- Claim C1 (code bug): on a tick where acquiring the snapshot from the
backend fails, the macOS enumeration swallows the exception and returns
the empty set, so the loop replaces `_last_devices` with the empty set and
the next successful tick fires a spurious callback for a target that was
continuously present; the loop-level handler that would make a raising
enumeration a true no-op (last conjunct) is unreachable for enumeration
failures. -/
theorem C1_failure_tick_corrupts_baseline :
    (monitorStep cfgT {devT} (macosTickInput false {devT} false)).1 = ∅
    ∧ (monitorRun cfgT {devT}
        [macosTickInput false {devT} false, macosTickInput true {devT} false]).2
      = [false, true]
    ∧ ∀ (last : Finset Device) (cb : Bool),
        monitorStep cfgT last { enum := EnumResult.error, callbackRaises := cb }
          = (last, false) :=
  ⟨by decide, by decide, fun _ _ => rfl⟩

/-- Claim C2 is false as stated: on a successfully acquired snapshot whose
tick's callback raises, `_last_devices` is not replaced by the new
snapshot (the assignment follows the callback inside the `try` block), so
it keeps its old value. -/
theorem C2_counterexample_callback_raise :
    monitorStep cfgT ∅ { enum := EnumResult.ok {devT}, callbackRaises := true }
      = (∅, true)
    ∧ (∅ : Finset Device) ≠ {devT} := by
  constructor
  · decide
  · decide

/-- Claim C2 amended: after a tick with a successfully acquired snapshot,
`_last_devices` equals the new snapshot when the callback was not invoked
or returned normally; when the invoked callback raises, the exception is
swallowed and the loop continues (later ticks still run), but
`_last_devices` keeps its old value. -/
theorem C2_amended_update_semantics (cfg : MonitorConfig) (last current : Finset Device)
    (cb : Bool) (rest : List TickInput) :
    ((monitorStep cfg last { enum := EnumResult.ok current, callbackRaises := cb }).2 = true
        ∧ cb = true
      → (monitorStep cfg last { enum := EnumResult.ok current, callbackRaises := cb }).1 = last)
    ∧ ((monitorStep cfg last { enum := EnumResult.ok current, callbackRaises := cb }).2 = false
        ∨ cb = false
      → (monitorStep cfg last { enum := EnumResult.ok current, callbackRaises := cb }).1 = current)
    ∧ (monitorRun cfg last ({ enum := EnumResult.ok current, callbackRaises := cb } :: rest)).2.length
        = rest.length + 1 := by
  refine ⟨?_, ?_, by simp [monitorRun, monitorRun_fired_length]⟩ <;>
    · simp only [monitorStep]
      cases htc : targetConfigured cfg with
      | none => simp
      | some target => cases cb <;> split <;> (try split) <;> simp_all

theorem C2_amended_witness :
    (monitorStep cfgT ∅ { enum := EnumResult.ok {devT}, callbackRaises := true }).1 = ∅ :=
  (C2_amended_update_semantics cfgT ∅ {devT} true []).1 ⟨by decide, rfl⟩

/-- Claim C3: with target `devT` configured and the snapshot sequence
`[{}, {T}, {T}, {}, {T}]` observed one element per tick (baseline empty),
the connect callback is invoked exactly twice, on the two
absent-to-present transitions, and on no other tick. -/
theorem C3_edge_triggered_exactly_twice :
    (monitorRun cfgT ∅ seqC3).2 = [false, true, false, false, true]
    ∧ (monitorRun cfgT ∅ seqC3).2.count true = 2 := by
  constructor
  · decide
  · decide

/-- Claim C9: a monitoring session started by `start_monitoring` takes a
fresh initial snapshot as baseline before the first comparison tick, so
whatever `_last_devices` held before the restart is irrelevant; the fired
ticks are exactly the absent-to-present edges of the snapshot sequence,
and in particular a target already present in the initial snapshot never
fires on the first tick. -/
theorem C9_initial_baseline_resets (cfg : MonitorConfig) (stale init : Finset Device)
    (target : Device) (ht : targetConfigured cfg = some target)
    (hcb : cfg.hasCallback = true) (hpresent : target ∈ init)
    (snaps : List (Finset Device)) :
    monitorSession cfg stale init (okTicks snaps) = monitorSession cfg ∅ init (okTicks snaps)
    ∧ (monitorSession cfg stale init (okTicks snaps)).2 = edgeFires target init snaps
    ∧ (edgeFires target init snaps).head? ≠ some true := by
  refine ⟨rfl, monitorRun_okTicks_edges cfg target ht hcb init snaps, ?_⟩
  cases snaps with
  | nil => simp [edgeFires]
  | cons s rest =>
    simp [edgeFires, hpresent]

theorem C9_witness :
    (monitorSession cfgT {devT} {devT} (okTicks [{devT}])).2.head? ≠ some true := by
  have h := C9_initial_baseline_resets cfgT {devT} {devT} devT (by decide) rfl
    (by decide) [{devT}]
  rw [h.2.1]
  exact h.2.2

/-! ## Helper lemmas about the Windows enumeration -/

theorem ofNat_shift_not_upper :
    ∀ n ∈ Finset.Icc 65 90, isUpperChar (Char.ofNat (n + 32)) = false := by decide

theorem pyToLower_notUpper (c : Char) : isUpperChar (pyToLower c) = false := by
  unfold pyToLower
  by_cases h : 65 ≤ c.toNat ∧ c.toNat ≤ 90
  · rw [if_pos h]
    exact ofNat_shift_not_upper c.toNat (Finset.mem_Icc.mpr h)
  · rw [if_neg h]
    by_cases h1 : 65 ≤ c.toNat
    · have h2 : ¬ c.toNat ≤ 90 := fun hh => h ⟨h1, hh⟩
      simp [isUpperChar, h1, h2]
    · simp [isUpperChar, h1]

theorem hasUpper_mk_lower (l : List Char) :
    hasUpper (String.mk ('0' :: 'x' :: l.map pyToLower)) = false := by
  show (('0' :: 'x' :: l.map pyToLower).any isUpperChar) = false
  rw [List.any_eq_false]
  intro c hc
  rw [List.mem_cons] at hc
  rcases hc with rfl | hc
  · decide
  rw [List.mem_cons] at hc
  rcases hc with rfl | hc
  · decide
  obtain ⟨a, _, rfl⟩ := List.mem_map.mp hc
  simp [pyToLower_notUpper]

theorem winParseDevice_shape (deviceId : String) (d : Device)
    (h : winParseDevice deviceId = some d) :
    ∃ v p : List Char,
      d.1 = String.mk ('0' :: 'x' :: v.map pyToLower)
      ∧ d.2 = String.mk ('0' :: 'x' :: p.map pyToLower)
      ∧ v.length ≤ 4 ∧ p.length ≤ 4 := by
  simp only [winParseDevice] at h
  split at h
  · split at h
    · rw [Option.some.injEq] at h
      subst h
      refine ⟨_, _, rfl, rfl, ?_, ?_⟩
      · rw [List.length_take]
        exact min_le_left _ _
      · rw [List.length_take]
        exact min_le_left _ _
    · simp at h
  · simp at h

theorem winGet_shape (ids : List String) (d : Device)
    (hd : d ∈ winGetConnectedDevices ids) :
    hasUpper d.1 = false ∧ hasUpper d.2 = false
    ∧ d.1.data.take 2 = ['0', 'x'] ∧ d.2.data.take 2 = ['0', 'x']
    ∧ d.1.length ≤ 6 ∧ d.2.length ≤ 6 := by
  rw [winGetConnectedDevices, List.mem_toFinset, List.mem_filterMap] at hd
  obtain ⟨deviceId, _, hparse⟩ := hd
  obtain ⟨v, p, h1, h2, hv, hp⟩ := winParseDevice_shape deviceId d hparse
  refine ⟨?_, ?_, ?_, ?_, ?_, ?_⟩
  · rw [h1]
    exact hasUpper_mk_lower v
  · rw [h2]
    exact hasUpper_mk_lower p
  · rw [h1]
    rfl
  · rw [h2]
    rfl
  · rw [h1]
    show ('0' :: 'x' :: v.map pyToLower).length ≤ 6
    simp only [List.length_cons, List.length_map]
    omega
  · rw [h2]
    show ('0' :: 'x' :: p.map pyToLower).length ≤ 6
    simp only [List.length_cons, List.length_map]
    omega

/-! ## Claim C10: the Windows identity normalization -/

/-- Claim C10 is false as stated: a DeviceID whose PID field holds fewer
than four characters before the end of the string yields a product id
that is not 0x followed by exactly four characters, because Python
slicing truncates. -/
theorem C10_counterexample_truncated_id :
    winParseDevice ("USB\\VID_ABCD&PID_12") = some ("0xabcd", "0x12")
    ∧ ("0x12" : String).length ≠ 6 := by
  constructor
  · decide
  · decide

/-- Claim C10 amended: every identity produced by the Windows enumeration
is 0x followed by at most four characters (exactly four when the DeviceID
is long enough), none of which is an uppercase ASCII letter; snapshots are
matched by exact string equality, so a configured target containing any
uppercase ASCII letter is never in a produced snapshot and the callback
never fires on a run over Windows snapshots. -/
theorem C10_uppercase_target_never_fires :
    (∀ (ids : List String) (d : Device), d ∈ winGetConnectedDevices ids →
        hasUpper d.1 = false ∧ hasUpper d.2 = false
        ∧ d.1.data.take 2 = ['0', 'x'] ∧ d.2.data.take 2 = ['0', 'x']
        ∧ d.1.length ≤ 6 ∧ d.2.length ≤ 6)
    ∧ ∀ (cfg : MonitorConfig) (target : Device),
        targetConfigured cfg = some target →
        (hasUpper target.1 = true ∨ hasUpper target.2 = true) →
        ∀ (init : Finset Device) (idss : List (List String)) (cbs : List Bool),
          (monitorRun cfg init (winTicks idss cbs)).2
            = List.replicate (winTicks idss cbs).length false := by
  refine ⟨winGet_shape, ?_⟩
  intro cfg target ht hup init idss cbs
  induction idss generalizing init cbs with
  | nil => rfl
  | cons ids rest ih =>
    cases cbs with
    | nil => rfl
    | cons cb cbs =>
      have hnot : target ∉ winGetConnectedDevices ids \ init := by
        intro hmem
        have hshape := winGet_shape ids target (Finset.mem_sdiff.mp hmem).1
        rcases hup with h1 | h1
        · rw [hshape.1] at h1
          exact Bool.false_ne_true h1
        · rw [hshape.2.1] at h1
          exact Bool.false_ne_true h1
      simp only [winTicks, List.zipWith_cons_cons, monitorRun, monitorStep, ht]
      rw [if_neg (fun hc => hnot hc.1)]
      simp only [winTicks] at ih
      simp [ih, List.replicate]

theorem C10_witness :
    (hasUpper ("0x05e3") = false ∧ hasUpper ("0x0610") = false
      ∧ ("0x05e3" : String).data.take 2 = ['0', 'x']
      ∧ ("0x0610" : String).data.take 2 = ['0', 'x']
      ∧ ("0x05e3" : String).length ≤ 6 ∧ ("0x0610" : String).length ≤ 6)
    ∧ (monitorRun cfgUpper ∅ (winTicks [upperIds] [false])).2
        = List.replicate (winTicks [upperIds] [false]).length false :=
  ⟨C10_uppercase_target_never_fires.1 upperIds ("0x05e3", "0x0610") (by decide),
   C10_uppercase_target_never_fires.2 cfgUpper ("0x05E3", "0x0610") (by decide)
     (Or.inl (by decide)) ∅ [upperIds] [false]⟩

end MonitorWatcher
